import Mathlib

/-!
Verification of the pizza-ordering saga system (order / payment / notification
services plus the outbox relay) against its natural-language specification.

Each Python function relevant to a claim is embedded shallowly as an
executable Lean definition:

* machine state (database tables, the in-memory circuit breaker) is passed
  explicitly;
* wall-clock time is an explicit `Nat` argument (seconds);
* Python exceptions become `Except` values;
* Python `dict` event payloads become association lists of `PyVal`s with
  Python truthiness (`x or y`, `if not x`) modelled explicitly.
-/

namespace Pizzas

/-! ## Circuit breaker (services/payment/app.py, class CircuitBreaker) -/

/-- Circuit breaker state enumeration (`CircuitBreakerState`). -/
inductive CBState where
  | CLOSED
  | OPEN
  | HALF_OPEN
deriving DecidableEq, Repr

/-- In-memory circuit breaker, mirroring `CircuitBreaker.__init__`.
`last_failure_time` is a wall-clock instant in seconds, `none` when no
failure was ever recorded. -/
structure CircuitBreaker where
  failure_threshold : Nat
  timeout : Nat
  success_threshold : Nat
  failure_count : Nat
  success_count : Nat
  last_failure_time : Option Nat
  state : CBState
deriving DecidableEq, Repr

/-- Fresh breaker as built by `CircuitBreaker.__init__`. -/
def CircuitBreaker.init (failure_threshold timeout success_threshold : Nat) :
    CircuitBreaker :=
  { failure_threshold := failure_threshold
    timeout := timeout
    success_threshold := success_threshold
    failure_count := 0
    success_count := 0
    last_failure_time := none
    state := CBState.CLOSED }

/-- Breaker with the default constructor arguments (5, 60, 3). -/
def cbDefault : CircuitBreaker := CircuitBreaker.init 5 60 3

/-- `CircuitBreaker.can_execute`, with `datetime.now()` passed as `now`.
Returns the mutated breaker and the boolean result. -/
def can_execute (cb : CircuitBreaker) (now : Nat) : CircuitBreaker × Bool :=
  match cb.state with
  | CBState.CLOSED => (cb, true)
  | CBState.OPEN =>
    match cb.last_failure_time with
    | some lf =>
      if lf + cb.timeout < now then
        ({ cb with state := CBState.HALF_OPEN, success_count := 0 }, true)
      else
        (cb, false)
    | none => (cb, false)
  | CBState.HALF_OPEN => (cb, true)

/-- `CircuitBreaker.record_success`. -/
def record_success (cb : CircuitBreaker) : CircuitBreaker :=
  if cb.state = CBState.HALF_OPEN then
    let cb' := { cb with success_count := cb.success_count + 1 }
    if cb'.success_threshold ≤ cb'.success_count then
      { cb' with state := CBState.CLOSED, failure_count := 0 }
    else
      cb'
  else
    { cb with failure_count := 0 }

/-- `CircuitBreaker.record_failure`, with `datetime.now()` passed as `now`. -/
def record_failure (cb : CircuitBreaker) (now : Nat) : CircuitBreaker :=
  let cb' := { cb with
    failure_count := cb.failure_count + 1
    last_failure_time := some now }
  if cb'.failure_threshold ≤ cb'.failure_count then
    { cb' with state := CBState.OPEN }
  else
    cb'

/-- One call against the breaker's public interface, time included. -/
inductive CBCall where
  | canExec (now : Nat)
  | recSuccess
  | recFailure (now : Nat)
deriving DecidableEq, Repr

/-- Apply one call (`can_execute` discards the returned boolean). -/
def cbStep (cb : CircuitBreaker) : CBCall → CircuitBreaker
  | CBCall.canExec now => (can_execute cb now).1
  | CBCall.recSuccess => record_success cb
  | CBCall.recFailure now => record_failure cb now

/-- Run a sequence of calls against the breaker. -/
def cbRun (cb : CircuitBreaker) : List CBCall → CircuitBreaker
  | [] => cb
  | c :: cs => cbRun (cbStep cb c) cs

/-- Fold `record_failure` over a list of failure times. -/
def failTimes (cb : CircuitBreaker) (ts : List Nat) : CircuitBreaker :=
  ts.foldl record_failure cb

/-- Iterate `record_success`. -/
def succTimes : Nat → CircuitBreaker → CircuitBreaker
  | 0, cb => cb
  | n + 1, cb => succTimes n (record_success cb)

/-! ## Event payloads as Python dicts -/

/-- A Python value as it appears where the claims need it: strings,
integers, or `None`. -/
inductive PyVal where
  | vStr (s : String)
  | vInt (n : Int)
  | vNone
deriving DecidableEq, Repr

/-- Python truthiness, as used by `if not x` and `x or y`. -/
def PyVal.truthy : PyVal → Bool
  | PyVal.vStr s => s ≠ ""
  | PyVal.vInt n => n ≠ 0
  | PyVal.vNone => false

/-- Python `str()`, as used by f-string interpolation. -/
def PyVal.pyStr : PyVal → String
  | PyVal.vStr s => s
  | PyVal.vInt n => toString n
  | PyVal.vNone => "None"

/-- An event payload: a Python dict with string keys. -/
abbrev Event := List (String × PyVal)

/-- `d.get(k)`: `None` when the key is missing. -/
def pyGet (d : Event) (k : String) : PyVal :=
  match d.find? (fun p => p.1 = k) with
  | some p => p.2
  | none => PyVal.vNone

/-- `k in d` (dict key membership, regardless of the stored value). -/
def hasKey (d : Event) (k : String) : Bool :=
  d.any fun p => p.1 = k

/-- Python `a or b`: `a` when truthy, otherwise `b`. -/
def pyOr (a b : PyVal) : PyVal :=
  if a.truthy then a else b

/-- `validate_required_fields` (shared/base_service.py): a field is missing
when absent or bound to `None`. -/
def validate_required_fields (d : Event) (required : List String) : List String :=
  required.filter fun f => pyGet d f == PyVal.vNone

/-! ## Order service tables (services/order/app.py) -/

/-- A row of `orders.orders` (the columns written by the service). -/
structure OrderRow where
  id : String
  user_id : String
  status : String
  total : Int
  delivery_address : String
  payment_method : String
deriving DecidableEq, Repr

/-- A row of `orders.outbox_events`. -/
structure OutboxRow where
  id : Nat
  aggregate_id : String
  event_type : String
  event_data : Event
  processed : Bool
  processed_at : Option Nat
deriving DecidableEq, Repr

/-- `OrderService.update_order_status_internal`: an UPDATE of the status
column predicated only on the row id — there is no predicate on the current
status — followed by an `OrderStatusChanged` outbox insert when the order
exists. Returns the success flag and both new tables. -/
def update_order_status_internal (orders : List OrderRow)
    (outbox : List OutboxRow) (order_id new_status reason : String) :
    Bool × List OrderRow × List OutboxRow :=
  let updated := orders.map fun o =>
    if o.id = order_id then { o with status := new_status } else o
  if orders.any (fun o => o.id = order_id) then
    (true, updated,
     outbox ++ [{ id := outbox.length, aggregate_id := order_id,
                  event_type := "OrderStatusChanged",
                  event_data :=
                    [("event_type", PyVal.vStr "OrderStatusChanged"),
                     ("orderId", PyVal.vStr order_id),
                     ("newStatus", PyVal.vStr new_status),
                     ("reason", PyVal.vStr reason)],
                  processed := false, processed_at := none }])
  else
    (false, orders, outbox)

/-! ## Event handler dispatch (claims about order-id resolution) -/

/-- What an event handler did with an inbound event. -/
inductive Dispatch where
  | dropped
  | orderCreated (order_id : PyVal)
  | orderPaid (order_id : PyVal)
  | paymentFailed (order_id : PyVal)
  | unknown (order_id : PyVal)
deriving DecidableEq, Repr

/-- `OrderService.handle_payment_event`: the order id is read from the
`order_id` key only; a falsy id is logged and the event dropped. -/
def handle_payment_event (event_data : Event) : Dispatch :=
  let event_type := pyGet event_data "event_type"
  let order_id := pyGet event_data "order_id"
  if !order_id.truthy then Dispatch.dropped
  else if event_type = PyVal.vStr "OrderPaid" then Dispatch.orderPaid order_id
  else if event_type = PyVal.vStr "PaymentFailed" then Dispatch.paymentFailed order_id
  else Dispatch.unknown order_id

/-- `PaymentService.handle_order_event`: the order id is
`event_data.get('orderId') or event_data.get('order_id')`; an OrderCreated
event is delegated to `handle_order_created` with that id (no drop here). -/
def handle_order_event (event_data : Event) : Dispatch :=
  let event_type := pyGet event_data "event_type"
  let order_id := pyOr (pyGet event_data "orderId") (pyGet event_data "order_id")
  if event_type = PyVal.vStr "OrderCreated" then Dispatch.orderCreated order_id
  else Dispatch.unknown order_id

/-- `NotificationService.handle_event` with its per-type sub-handlers: the
top-level resolver reads both spellings but only for logging; the
OrderCreated sub-handler re-reads `orderId` only, the OrderPaid and
PaymentFailed sub-handlers re-read `order_id` only, each dropping the event
when its spelling is missing or falsy. -/
def notification_handle_event (event_data : Event) : Dispatch :=
  let event_type := pyGet event_data "event_type"
  if event_type = PyVal.vStr "OrderCreated" then
    let order_id := pyGet event_data "orderId"
    if !order_id.truthy then Dispatch.dropped else Dispatch.orderCreated order_id
  else if event_type = PyVal.vStr "OrderPaid" then
    let order_id := pyGet event_data "order_id"
    if !order_id.truthy then Dispatch.dropped else Dispatch.orderPaid order_id
  else if event_type = PyVal.vStr "PaymentFailed" then
    let order_id := pyGet event_data "order_id"
    if !order_id.truthy then Dispatch.dropped else Dispatch.paymentFailed order_id
  else Dispatch.unknown (pyOr (pyGet event_data "orderId") (pyGet event_data "order_id"))

/-! ## SHA-256 (hashlib.sha256, FIPS 180-4), for the idempotency key -/

/-- Truncate to a 32-bit word. -/
def w32 (x : Nat) : Nat := x % 4294967296

/-- 32-bit modular addition. -/
def wadd (a b : Nat) : Nat := w32 (a + b)

/-- Right-rotation of a 32-bit word by `n`. -/
def rotr (n x : Nat) : Nat := w32 (x / 2 ^ n + x % 2 ^ n * 2 ^ (32 - n))

/-- Bitwise complement of a 32-bit word. -/
def wnot (x : Nat) : Nat := 4294967295 - x

def shaCh (e f g : Nat) : Nat := Nat.xor (Nat.land e f) (Nat.land (wnot e) g)

def shaMaj (a b c : Nat) : Nat :=
  Nat.xor (Nat.xor (Nat.land a b) (Nat.land a c)) (Nat.land b c)

def bigS0 (a : Nat) : Nat := Nat.xor (Nat.xor (rotr 2 a) (rotr 13 a)) (rotr 22 a)

def bigS1 (e : Nat) : Nat := Nat.xor (Nat.xor (rotr 6 e) (rotr 11 e)) (rotr 25 e)

def smallS0 (x : Nat) : Nat := Nat.xor (Nat.xor (rotr 7 x) (rotr 18 x)) (x / 2 ^ 3)

def smallS1 (x : Nat) : Nat := Nat.xor (Nat.xor (rotr 17 x) (rotr 19 x)) (x / 2 ^ 10)

/-- Round constants: fractional parts of the cube roots of the first 64
primes. -/
def sha256K : List Nat :=
  [1116352408, 1899447441, 3049323471, 3921009573,
   961987163, 1508970993, 2453635748, 2870763221,
   3624381080, 310598401, 607225278, 1426881987,
   1925078388, 2162078206, 2614888103, 3248222580,
   3835390401, 4022224774, 264347078, 604807628,
   770255983, 1249150122, 1555081692, 1996064986,
   2554220882, 2821834349, 2952996808, 3210313671,
   3336571891, 3584528711, 113926993, 338241895,
   666307205, 773529912, 1294757372, 1396182291,
   1695183700, 1986661051, 2177026350, 2456956037,
   2730485921, 2820302411, 3259730800, 3345764771,
   3516065817, 3600352804, 4094571909, 275423344,
   430227734, 506948616, 659060556, 883997877,
   958139571, 1322822218, 1537002063, 1747873779,
   1955562222, 2024104815, 2227730452, 2361852424,
   2428436474, 2756734187, 3204031479, 3329325298]

/-- Initial hash value: fractional parts of the square roots of the first 8
primes. -/
def sha256H0 : List Nat :=
  [1779033703, 3144134277, 1013904242, 2773480762,
   1359893119, 2600822924, 528734635, 1541459225]

/-- Big-endian byte expansion, `n` bytes. -/
def beBytes (n x : Nat) : List Nat :=
  (List.range n).map fun i => x / 2 ^ (8 * (n - 1 - i)) % 256

/-- Padding: a 0x80 byte, zeros to 56 mod 64, then the bit length on 8
bytes. -/
def shaPad (msg : List Nat) : List Nat :=
  msg ++ [128] ++ List.replicate ((119 - msg.length % 64) % 64) 0 ++
    beBytes 8 (8 * msg.length)

/-- Split a byte string into 64-byte blocks (structural recursion on a
fuel bounded by the length, so that the kernel can evaluate it). -/
def chunksAux : Nat → List Nat → List (List Nat)
  | 0, _ => []
  | _, [] => []
  | fuel + 1, l => l.take 64 :: chunksAux fuel (l.drop 64)

/-- Split a byte string into 64-byte blocks. -/
def chunks64 (l : List Nat) : List (List Nat) :=
  chunksAux l.length l

/-- Big-endian 32-bit words of a byte string. -/
def wordsOf : List Nat → List Nat
  | b0 :: b1 :: b2 :: b3 :: rest =>
    (((b0 * 256 + b1) * 256 + b2) * 256 + b3) :: wordsOf rest
  | _ => []

/-- One message-schedule extension step. -/
def extendW (w : List Nat) : List Nat :=
  w ++ [wadd (wadd (smallS1 (w.getD (w.length - 2) 0)) (w.getD (w.length - 7) 0))
             (wadd (smallS0 (w.getD (w.length - 15) 0)) (w.getD (w.length - 16) 0))]

/-- One compression round on the eight working variables. -/
def compressRound (st : List Nat) (kw : Nat × Nat) : List Nat :=
  match st with
  | [a, b, c, d, e, f, g, h] =>
    let t1 := wadd h (wadd (bigS1 e) (wadd (shaCh e f g) (wadd kw.1 kw.2)))
    let t2 := wadd (bigS0 a) (shaMaj a b c)
    [wadd t1 t2, a, b, c, wadd d t1, e, f, g]
  | st => st

/-- Compress one 64-byte block into the hash state. -/
def processChunk (h0 : List Nat) (chunk : List Nat) : List Nat :=
  let w := extendW^[48] (wordsOf chunk)
  let st := (sha256K.zip w).foldl compressRound h0
  (h0.zip st).map fun p => wadd p.1 p.2

/-- SHA-256 digest of a byte string, as eight 32-bit words. -/
def sha256Words (msg : List Nat) : List Nat :=
  (chunks64 (shaPad msg)).foldl processChunk sha256H0

def hexChar (n : Nat) : Char := "0123456789abcdef".toList.getD n 'x'

/-- Lowercase hexadecimal rendering of a 32-bit word. -/
def wordHex (x : Nat) : String :=
  String.mk ((List.range 8).map fun i => hexChar (x / 16 ^ (7 - i) % 16))

/-- `hashlib.sha256(bytes).hexdigest()`. -/
def sha256Hex (msg : List Nat) : String :=
  String.join ((sha256Words msg).map wordHex)

/-- UTF-8 encoding of one character (Python `str.encode()`). -/
def utf8Char (c : Char) : List Nat :=
  let n := c.toNat
  if n < 128 then [n]
  else if n < 2048 then [192 + n / 64, 128 + n % 64]
  else if n < 65536 then [224 + n / 4096, 128 + n / 64 % 64, 128 + n % 64]
  else [240 + n / 262144, 128 + n / 4096 % 64, 128 + n / 64 % 64, 128 + n % 64]

/-- UTF-8 bytes of a string. -/
def utf8Bytes (s : String) : List Nat :=
  s.data.foldr (fun c acc => utf8Char c ++ acc) []

/-- `PaymentService.generate_idempotency_key`:
`sha256(f"{order_id}:{amount}:{payment_method}".encode()).hexdigest()`. -/
def generate_idempotency_key (order_id : String) (amount : Int)
    (payment_method : String) : String :=
  sha256Hex (utf8Bytes (order_id ++ ":" ++ toString amount ++ ":" ++ payment_method))

/-! ## Payment service (services/payment/app.py) -/

/-- SQL equality: `NULL` compares equal to nothing, itself included. -/
def sqlEq (a b : PyVal) : Bool :=
  match a, b with
  | PyVal.vNone, _ => false
  | _, PyVal.vNone => false
  | a, b => a = b

/-- A row of the `payments` table (the columns written by the service). -/
structure PaymentRow where
  id : String
  order_id : PyVal
  amount : PyVal
  payment_method : PyVal
  status : String
  idempotency_key : String
deriving DecidableEq, Repr

/-- `PaymentService.get_payment_by_order_id`:
`SELECT * FROM payments WHERE order_id = %s`, first row. -/
def get_payment_by_order_id (payments : List PaymentRow) (order_id : PyVal) :
    Option PaymentRow :=
  payments.find? fun r => sqlEq r.order_id order_id

/-- `PaymentService.create_payment_record`: an INSERT guarded by the unique
constraint on `order_id` (NULL values are exempt, per SQL); on violation
the exception is logged and re-raised. -/
def create_payment_record (payments : List PaymentRow) (payment_id : String)
    (order_id amount payment_method : PyVal) (idempotency_key : String) :
    Except String (List PaymentRow) :=
  if payments.any (fun r => sqlEq r.order_id order_id) then
    Except.error "duplicate key value violates unique constraint"
  else
    Except.ok (payments ++
      [{ id := payment_id, order_id := order_id, amount := amount,
         payment_method := payment_method, status := "PENDING",
         idempotency_key := idempotency_key }])

/-- `PaymentService.handle_order_created`: missing `totalAmount`,
`paymentMethod` or `userId` keys return early; an existing payment for the
order id returns early; otherwise a payment row is inserted and the async
processing thread is started. The boolean reports whether processing was
started (`process_payment_async`, the only publisher of `OrderPaid` on this
path). `payment_id` stands for the generated `generate_id('pay_')`. -/
def handle_order_created (event_data : Event) (order_id : PyVal)
    (payments : List PaymentRow) (payment_id : String) :
    List PaymentRow × Bool :=
  if !(hasKey event_data "totalAmount" && hasKey event_data "paymentMethod" &&
       hasKey event_data "userId") then
    (payments, false)
  else
    let amount := pyGet event_data "totalAmount"
    let payment_method := pyGet event_data "paymentMethod"
    if (get_payment_by_order_id payments order_id).isSome then
      (payments, false)
    else
      let idempotency_key := sha256Hex (utf8Bytes
        (order_id.pyStr ++ ":" ++ amount.pyStr ++ ":" ++ payment_method.pyStr))
      match create_payment_record payments payment_id order_id amount
          payment_method idempotency_key with
      | Except.ok w => (w, true)
      | Except.error _ => (payments, false)

/-- The table after one delivery of an OrderCreated event
(`handle_order_created`, world component only). -/
def deliverOrderCreated (event_data : Event) (order_id : PyVal)
    (payment_id : String) (payments : List PaymentRow) : List PaymentRow :=
  (handle_order_created event_data order_id payments payment_id).1

/-- HTTP outcome of the POST /api/v1/payments handler. -/
inductive PayResp where
  | okExisting (payment_id status : String)
  | accepted (payment_id : String)
  | badRequest
  | internalError
deriving DecidableEq, Repr

/-- `process_payment` (POST /api/v1/payments). Rows committed by concurrent
creators between the idempotency check and the INSERT are passed as
`concurrent`; `payment_id` stands for the generated id. A non-integer
`amount` makes `amount <= 0` raise, which the generic handler maps to 500,
as it does the re-raised unique-constraint violation. -/
def process_payment (data : Event) (payments concurrent : List PaymentRow)
    (payment_id : String) : PayResp × List PaymentRow :=
  if validate_required_fields data ["orderId", "amount", "paymentMethod"] ≠ [] then
    (PayResp.badRequest, payments ++ concurrent)
  else
    let order_id := pyGet data "orderId"
    let amount := pyGet data "amount"
    let payment_method := pyGet data "paymentMethod"
    match amount with
    | PyVal.vInt n =>
      if n ≤ 0 then (PayResp.badRequest, payments ++ concurrent)
      else
        match get_payment_by_order_id payments order_id with
        | some existing =>
          (PayResp.okExisting existing.id existing.status, payments ++ concurrent)
        | none =>
          let idempotency_key := sha256Hex (utf8Bytes
            (order_id.pyStr ++ ":" ++ amount.pyStr ++ ":" ++ payment_method.pyStr))
          match create_payment_record (payments ++ concurrent) payment_id
              order_id amount payment_method idempotency_key with
          | Except.ok w => (PayResp.accepted payment_id, w)
          | Except.error _ => (PayResp.internalError, payments ++ concurrent)
    | _ => (PayResp.internalError, payments ++ concurrent)

/-! ## Outbox relay (services/order/outbox_processor.py) -/

/-- `retry_with_backoff` (shared/base_service.py): per-attempt outcomes are
given by the oracle `f` starting at index `i`; the exception of the last
attempt is re-raised; an empty range falls through returning `None`
(falsy), modelled as `ok false`. -/
def retry_with_backoff (f : Nat → Except String Bool) (i : Nat) :
    Nat → Except String Bool
  | 0 => Except.ok false
  | 1 => f i
  | n + 2 =>
    match f i with
    | Except.ok v => Except.ok v
    | Except.error _ => retry_with_backoff f (i + 1) (n + 1)

/-- `OutboxProcessor.publish_event_with_confirmation`: raises when the
publish attempt (oracle `pub`, indexed by attempt) reports failure. -/
def publish_event_with_confirmation (pub : Nat → Bool) (i : Nat) :
    Except String Bool :=
  if pub i then Except.ok true
  else Except.error "Failed to publish event to Kafka"

/-- `OutboxProcessor.mark_event_processed`: the guarded UPDATE raises when
no row has the id (rolling the transaction back). -/
def mark_event_processed (table : List OutboxRow) (event_id : Nat) (now : Nat) :
    Except String (List OutboxRow) :=
  if table.any (fun r => r.id = event_id) then
    Except.ok (table.map fun r =>
      if r.id = event_id then
        { r with processed := true, processed_at := some now }
      else r)
  else
    Except.error "not found for marking as processed"

/-- `OutboxProcessor.process_single_event`: publish with retry, then mark
processed; any exception is caught and reported as `false`, leaving the
table unchanged. -/
def process_single_event (table : List OutboxRow) (event : OutboxRow)
    (pub : Nat → Bool) (max_retries now : Nat) : Bool × List OutboxRow :=
  match retry_with_backoff (publish_event_with_confirmation pub) 0 max_retries with
  | Except.ok true =>
    match mark_event_processed table event.id now with
    | Except.ok t => (true, t)
    | Except.error _ => (false, table)
  | Except.ok false => (false, table)
  | Except.error _ => (false, table)

/-! ## Order creation (services/order/app.py) -/

/-- One entry of the request `items` list; `pizzaId` and `quantity` may be
absent from the dict. -/
structure ReqItem where
  pizzaId : Option String
  quantity : Option Int
deriving DecidableEq, Repr

/-- One entry of the `pizza_details` list built by `get_pizza_details`. -/
structure PizzaDetail where
  pizza_id : String
  pizza_name : String
  pizza_price : Int
  quantity : Int
  subtotal : Int
deriving DecidableEq, Repr

/-- A row of `orders.order_items`. -/
structure OrderItemRow where
  order_id : String
  pizza_id : String
  pizza_name : String
  pizza_price : Int
  quantity : Int
  subtotal : Int
deriving DecidableEq, Repr

/-- `OrderService.get_pizza_details`: one lookup per item against the
catalog (the frontend menu, a map from pizza id to name and price);
a missing `pizzaId` or an unknown pizza raises. `quantity` defaults to 1. -/
def get_pizza_details (catalog : String → Option (String × Int)) :
    List ReqItem → Except String (List PizzaDetail)
  | [] => Except.ok []
  | it :: rest =>
    match it.pizzaId with
    | none => Except.error "Pizza ID is required for each item"
    | some pid =>
      match catalog pid with
      | none => Except.error "Pizza not found"
      | some (name, price) =>
        let q := it.quantity.getD 1
        match get_pizza_details catalog rest with
        | Except.ok ds =>
          Except.ok
            ({ pizza_id := pid, pizza_name := name, pizza_price := price,
               quantity := q, subtotal := price * q } :: ds)
        | Except.error e => Except.error e

/-- `OrderService.calculate_total`. -/
def calculate_total (pizza_details : List PizzaDetail) : Int :=
  (pizza_details.map fun d => d.pizza_price * d.quantity).sum

/-- The `order_items` insert loop of `create_order_with_outbox`: each item
is paired with the first detail of equal `pizza_id` (silently skipped when
none matches); `item['pizzaId']` and `item['quantity']` are direct
subscripts, so a missing key raises and aborts the transaction. -/
def buildOrderItems (order_id : String) (pizza_details : List PizzaDetail) :
    List ReqItem → Except String (List OrderItemRow)
  | [] => Except.ok []
  | it :: rest =>
    match it.pizzaId with
    | none => Except.error "KeyError: pizzaId"
    | some pid =>
      match pizza_details.find? (fun p => p.pizza_id = pid) with
      | none => buildOrderItems order_id pizza_details rest
      | some detail =>
        match it.quantity with
        | none => Except.error "KeyError: quantity"
        | some q =>
          match buildOrderItems order_id pizza_details rest with
          | Except.ok rows =>
            Except.ok
              ({ order_id := order_id, pizza_id := detail.pizza_id,
                 pizza_name := detail.pizza_name,
                 pizza_price := detail.pizza_price, quantity := q,
                 subtotal := detail.pizza_price * q } :: rows)
          | Except.error e => Except.error e

/-- `OrderService.create_order_with_outbox`: one transaction inserting the
order row (status PENDING, the passed total), the item rows, and the
`OrderCreated` outbox row; an exception anywhere aborts the whole
transaction. Nested payload entries that no claim touches (the simplified
items list) are left out of the envelope. -/
def create_order_with_outbox (order_id user_id : String) (items : List ReqItem)
    (pizza_details : List PizzaDetail) (total_amount : Int)
    (delivery_address payment_method : String) :
    Except String (OrderRow × List OrderItemRow × OutboxRow) :=
  match buildOrderItems order_id pizza_details items with
  | Except.error e => Except.error e
  | Except.ok rows =>
    Except.ok
      ({ id := order_id, user_id := user_id, status := "PENDING",
         total := total_amount, delivery_address := delivery_address,
         payment_method := payment_method },
       rows,
       { id := 0, aggregate_id := order_id, event_type := "OrderCreated",
         event_data :=
           [("event_type", PyVal.vStr "OrderCreated"),
            ("orderId", PyVal.vStr order_id),
            ("userId", PyVal.vStr user_id),
            ("totalAmount", PyVal.vInt total_amount),
            ("itemsCount", PyVal.vInt items.length),
            ("paymentMethod", PyVal.vStr payment_method),
            ("deliveryAddress", PyVal.vStr delivery_address)],
         processed := false, processed_at := none })

/-- The contribution of one request item to the order total: the catalog
price of its pizza times its quantity (defaulted to 1), used to relate
`calculate_total` and the inserted item rows. -/
def catalogContribution (catalog : String → Option (String × Int))
    (it : ReqItem) : Int :=
  match it.pizzaId with
  | some pid =>
    match catalog pid with
    | some (_, price) => price * it.quantity.getD 1
    | none => 0
  | none => 0

/-- The detail built by `get_pizza_details` for a given request item. -/
def DetailOf (catalog : String → Option (String × Int)) (it : ReqItem)
    (d : PizzaDetail) : Prop :=
  ∃ pid nm price, it.pizzaId = some pid ∧ catalog pid = some (nm, price) ∧
    d = { pizza_id := pid, pizza_name := nm, pizza_price := price,
          quantity := it.quantity.getD 1,
          subtotal := price * it.quantity.getD 1 }

/-! ### Circuit breaker lemmas -/

theorem record_failure_last (cb : CircuitBreaker) (t : Nat) :
    (record_failure cb t).last_failure_time = some t := by
  simp only [record_failure]
  split <;> rfl

theorem record_failure_count (cb : CircuitBreaker) (t : Nat) :
    (record_failure cb t).failure_count = cb.failure_count + 1 := by
  simp only [record_failure]
  split <;> rfl

theorem record_failure_threshold (cb : CircuitBreaker) (t : Nat) :
    (record_failure cb t).failure_threshold = cb.failure_threshold := by
  simp only [record_failure]
  split <;> rfl

theorem record_failure_timeout (cb : CircuitBreaker) (t : Nat) :
    (record_failure cb t).timeout = cb.timeout := by
  simp only [record_failure]
  split <;> rfl

theorem record_failure_open (cb : CircuitBreaker) (t : Nat)
    (h : cb.failure_threshold ≤ cb.failure_count + 1) :
    (record_failure cb t).state = CBState.OPEN := by
  simp only [record_failure]
  rw [if_pos (by simpa using h)]

theorem failTimes_count (ts : List Nat) (cb : CircuitBreaker) :
    (failTimes cb ts).failure_count = cb.failure_count + ts.length := by
  induction ts generalizing cb with
  | nil => rfl
  | cons t ts ih =>
    show (failTimes (record_failure cb t) ts).failure_count = _
    rw [ih, record_failure_count]
    simp [Nat.add_comm, Nat.add_assoc, Nat.add_left_comm]

theorem failTimes_threshold (ts : List Nat) (cb : CircuitBreaker) :
    (failTimes cb ts).failure_threshold = cb.failure_threshold := by
  induction ts generalizing cb with
  | nil => rfl
  | cons t ts ih =>
    show (failTimes (record_failure cb t) ts).failure_threshold = _
    rw [ih, record_failure_threshold]

theorem failTimes_timeout (ts : List Nat) (cb : CircuitBreaker) :
    (failTimes cb ts).timeout = cb.timeout := by
  induction ts generalizing cb with
  | nil => rfl
  | cons t ts ih =>
    show (failTimes (record_failure cb t) ts).timeout = _
    rw [ih, record_failure_timeout]

theorem failTimes_snoc (cb : CircuitBreaker) (ts : List Nat) (t : Nat) :
    failTimes cb (ts ++ [t]) = record_failure (failTimes cb ts) t := by
  simp [failTimes, List.foldl_append]

theorem can_execute_of_open (cb : CircuitBreaker) (lf now : Nat)
    (hs : cb.state = CBState.OPEN) (hl : cb.last_failure_time = some lf) :
    can_execute cb now =
      if lf + cb.timeout < now then
        ({ cb with state := CBState.HALF_OPEN, success_count := 0 }, true)
      else
        (cb, false) := by
  obtain ⟨fth, tmo, sth, fc, sc, lft, st⟩ := cb
  cases st with
  | CLOSED => simp at hs
  | HALF_OPEN => simp at hs
  | OPEN =>
    cases lft with
    | none => simp at hl
    | some x =>
      have hx : x = lf := by simpa using hl
      subst hx
      rfl

theorem record_success_half_step (cb : CircuitBreaker)
    (hs : cb.state = CBState.HALF_OPEN)
    (hlt : cb.success_count + 1 < cb.success_threshold) :
    record_success cb = { cb with success_count := cb.success_count + 1 } := by
  simp only [record_success]
  rw [if_pos hs]
  split
  · next hge => exact absurd (by simpa using hge) (by omega)
  · rfl

theorem record_success_half_close (cb : CircuitBreaker)
    (hs : cb.state = CBState.HALF_OPEN)
    (hge : cb.success_threshold ≤ cb.success_count + 1) :
    record_success cb =
      { cb with state := CBState.CLOSED, failure_count := 0,
                success_count := cb.success_count + 1 } := by
  simp only [record_success]
  rw [if_pos hs]
  split
  · rfl
  · next hlt => exact absurd hge (by simpa using hlt)

theorem succTimes_reach (k : Nat) :
    ∀ cb : CircuitBreaker, cb.state = CBState.HALF_OPEN →
      cb.success_count + k = cb.success_threshold → 0 < k →
      succTimes k cb =
        { cb with state := CBState.CLOSED, failure_count := 0,
                  success_count := cb.success_threshold } := by
  induction k with
  | zero => intro _ _ _ hk; omega
  | succ k ih =>
    intro cb hs heq _
    rcases Nat.eq_zero_or_pos k with hk0 | hkpos
    · subst hk0
      show succTimes 0 (record_success cb) = _
      rw [record_success_half_close cb hs (by omega)]
      have hsc : cb.success_count + 1 = cb.success_threshold := by omega
      simp only [succTimes, hsc]
    · show succTimes k (record_success cb) = _
      rw [record_success_half_step cb hs (by omega),
          ih _ (by simp [hs]) (by simp; omega) hkpos]

/-- Invariant preservation: one interface call keeps the property that an
OPEN breaker carries a failure timestamp. -/
theorem cbStep_open_has_failure_time (cb : CircuitBreaker) (c : CBCall)
    (h : cb.state = CBState.OPEN → cb.last_failure_time ≠ none) :
    (cbStep cb c).state = CBState.OPEN → (cbStep cb c).last_failure_time ≠ none := by
  obtain ⟨fth, tmo, sth, fc, sc, lft, st⟩ := cb
  cases c with
  | canExec now =>
    cases st with
    | CLOSED => simp [cbStep, can_execute]
    | HALF_OPEN => simp [cbStep, can_execute]
    | OPEN =>
      cases lft with
      | none => intro _; exact absurd rfl (h rfl)
      | some lf =>
        simp only [cbStep, can_execute]
        split <;> simp
  | recSuccess =>
    cases st with
    | CLOSED => simp [cbStep, record_success]
    | OPEN =>
      intro _
      show ( record_success _).last_failure_time ≠ none
      simp only [record_success]
      split
      · next hh => simp at hh
      · exact h rfl
    | HALF_OPEN =>
      show ( record_success _).state = _ → ( record_success _).last_failure_time ≠ none
      simp only [record_success]
      split
      · split <;> simp
      · simp
  | recFailure now =>
    intro _
    show (record_failure _ now).last_failure_time ≠ none
    rw [record_failure_last]
    simp

/-- Claim C9: along any sequence of `can_execute`, `record_success` and
`record_failure` calls from a fresh breaker, whenever the state is OPEN the
`last_failure_time` field is set; hence the `None`-check in `can_execute`'s
OPEN branch never keeps an OPEN breaker with an elapsed timeout rejecting
for lack of a timestamp. -/
theorem cb_open_always_has_last_failure (fth tmo sth : Nat) (calls : List CBCall)
    (h : (cbRun (CircuitBreaker.init fth tmo sth) calls).state = CBState.OPEN) :
    (cbRun (CircuitBreaker.init fth tmo sth) calls).last_failure_time ≠ none := by
  suffices H : ∀ cb : CircuitBreaker,
      (cb.state = CBState.OPEN → cb.last_failure_time ≠ none) →
      ∀ cs : List CBCall,
        (cbRun cb cs).state = CBState.OPEN → (cbRun cb cs).last_failure_time ≠ none by
    exact H _ (by simp [CircuitBreaker.init]) calls h
  intro cb hcb cs
  induction cs generalizing cb with
  | nil => exact hcb
  | cons c cs ih => exact ih _ (cbStep_open_has_failure_time cb c hcb)

/-- Witness for `cb_open_always_has_last_failure`: a breaker with failure
threshold 1 is OPEN after one recorded failure and holds a timestamp. -/
theorem cb_open_always_has_last_failure_witness :
    (cbRun (CircuitBreaker.init 1 60 3) [CBCall.recFailure 7]).state = CBState.OPEN ∧
    (cbRun (CircuitBreaker.init 1 60 3) [CBCall.recFailure 7]).last_failure_time ≠ none :=
  ⟨by decide,
   cb_open_always_has_last_failure 1 60 3 [CBCall.recFailure 7] (by decide)⟩

/-- Claim C3, counterexample: with the default parameters (5, 60, 3),
(i) a success recorded while the breaker is OPEN clears the failure counter,
after which a `record_failure` in HALF_OPEN leaves the breaker HALF_OPEN
instead of returning it to OPEN; (ii) after three consecutive HALF_OPEN
successes the breaker is CLOSED but `success_count` is 3, so the counters
are not all reset. -/
theorem circuit_breaker_claim_counterexample :
    (cbRun cbDefault
      [CBCall.recFailure 0, CBCall.recFailure 0, CBCall.recFailure 0,
       CBCall.recFailure 0, CBCall.recFailure 0, CBCall.recSuccess,
       CBCall.canExec 100, CBCall.recFailure 100]).state = CBState.HALF_OPEN ∧
    (cbRun cbDefault
      [CBCall.recFailure 0, CBCall.recFailure 0, CBCall.recFailure 0,
       CBCall.recFailure 0, CBCall.recFailure 0, CBCall.canExec 100,
       CBCall.recSuccess, CBCall.recSuccess, CBCall.recSuccess]).state = CBState.CLOSED ∧
    (cbRun cbDefault
      [CBCall.recFailure 0, CBCall.recFailure 0, CBCall.recFailure 0,
       CBCall.recFailure 0, CBCall.recFailure 0, CBCall.canExec 100,
       CBCall.recSuccess, CBCall.recSuccess, CBCall.recSuccess]).success_count = 3 := by
  decide

/-- Claim C3, amended: (a) from a CLOSED breaker, `failure_threshold`
consecutive `record_failure` calls open it, and a `can_execute` within
`timeout` seconds of the last failure returns false; (b) while OPEN,
`can_execute` rejects until more than `timeout` seconds have elapsed since
the last recorded failure, then admits one trial by moving to HALF_OPEN
with the success counter cleared; (c) in HALF_OPEN, `success_threshold`
consecutive `record_success` calls return the breaker to CLOSED with the
failure counter reset — the success counter is left at `success_threshold`
and is cleared only on the next entry to HALF_OPEN; (d) in HALF_OPEN,
`record_failure` stamps `last_failure_time` and returns the breaker to OPEN
provided the failure count is within one of the threshold, which holds
whenever no success was recorded while the breaker was OPEN. -/
theorem circuit_breaker_amended (cb : CircuitBreaker) :
    (∀ (ts : List Nat) (t : Nat), cb.state = CBState.CLOSED →
      ts.length + 1 = cb.failure_threshold →
      (failTimes cb (ts ++ [t])).state = CBState.OPEN ∧
      ∀ now, now ≤ t + cb.timeout →
        (can_execute (failTimes cb (ts ++ [t])) now).2 = false) ∧
    (∀ lf now, cb.state = CBState.OPEN → cb.last_failure_time = some lf →
      (now ≤ lf + cb.timeout → can_execute cb now = (cb, false)) ∧
      (lf + cb.timeout < now →
        can_execute cb now =
          ({ cb with state := CBState.HALF_OPEN, success_count := 0 }, true))) ∧
    (cb.state = CBState.HALF_OPEN → cb.success_count = 0 →
      0 < cb.success_threshold →
      (succTimes cb.success_threshold cb).state = CBState.CLOSED ∧
      (succTimes cb.success_threshold cb).failure_count = 0 ∧
      (succTimes cb.success_threshold cb).success_count = cb.success_threshold) ∧
    (∀ now, cb.state = CBState.HALF_OPEN →
      cb.failure_threshold ≤ cb.failure_count + 1 →
      (record_failure cb now).state = CBState.OPEN ∧
      (record_failure cb now).last_failure_time = some now) := by
  refine ⟨?_, ?_, ?_, ?_⟩
  · intro ts t _ hlen
    have hopen : (failTimes cb (ts ++ [t])).state = CBState.OPEN := by
      rw [failTimes_snoc]
      apply record_failure_open
      rw [failTimes_count, failTimes_threshold]
      omega
    refine ⟨hopen, ?_⟩
    intro now hnow
    have hlast : (failTimes cb (ts ++ [t])).last_failure_time = some t := by
      rw [failTimes_snoc, record_failure_last]
    rw [can_execute_of_open _ t now hopen hlast, failTimes_snoc,
        record_failure_timeout, failTimes_timeout,
        if_neg (by omega)]
  · intro lf now hs hl
    constructor
    · intro hnow
      rw [can_execute_of_open cb lf now hs hl, if_neg (by omega)]
    · intro hnow
      rw [can_execute_of_open cb lf now hs hl, if_pos hnow]
  · intro hs hsc hpos
    rw [succTimes_reach cb.success_threshold cb hs (by omega) hpos]
    exact ⟨rfl, rfl, rfl⟩
  · intro now hs hth
    exact ⟨record_failure_open cb now hth, record_failure_last cb now⟩

/-- Witness for `circuit_breaker_amended` on the default breaker: five
failures at time 0 open it and an admission check at time 30 is rejected. -/
theorem circuit_breaker_amended_witness :
    (failTimes cbDefault ([0, 0, 0, 0] ++ [0])).state = CBState.OPEN ∧
    (can_execute (failTimes cbDefault ([0, 0, 0, 0] ++ [0])) 30).2 = false :=
  have h := (circuit_breaker_amended cbDefault).1 [0, 0, 0, 0] 0 (by decide) (by decide)
  ⟨h.1, h.2 30 (by decide)⟩

/-! ### Order status updates (claim C1) -/

/-- Claim C1 (evaluation at the failing input): `update_order_status_internal`
runs an UPDATE with no predicate on the current status, so a PAID → FAILED
request on a stored PAID order reports success and stores FAILED — the
claimed guard rejecting illegal transitions does not exist. -/
theorem update_order_status_paid_to_failed :
    (update_order_status_internal
      [{ id := "order_1", user_id := "u1", status := "PAID", total := 119800,
         delivery_address := "addr 5", payment_method := "card" }]
      [] "order_1" "FAILED" "provider rejected").1 = true ∧
    ((update_order_status_internal
      [{ id := "order_1", user_id := "u1", status := "PAID", total := 119800,
         delivery_address := "addr 5", payment_method := "card" }]
      [] "order_1" "FAILED" "provider rejected").2.1.map OrderRow.status) =
      ["FAILED"] := by
  exact ⟨rfl, rfl⟩

/-! ### Idempotency key (claim C5) -/

/-- Claim C5: `generate_idempotency_key` is exactly the SHA-256 hex digest
of `order_id ++ ":" ++ amount ++ ":" ++ payment_method` (UTF-8), and equal
argument triples give equal keys. -/
theorem idempotency_key_deterministic (o o' m m' : String) (a a' : Int)
    (ho : o = o') (ha : a = a') (hm : m = m') :
    generate_idempotency_key o a m =
      sha256Hex (utf8Bytes (o ++ ":" ++ toString a ++ ":" ++ m)) ∧
    generate_idempotency_key o a m = generate_idempotency_key o' a' m' := by
  subst ho; subst ha; subst hm
  exact ⟨rfl, rfl⟩

/-- Witness for `idempotency_key_deterministic` at a concrete triple. -/
theorem idempotency_key_deterministic_witness :
    generate_idempotency_key "order_1" 119800 "card" =
      sha256Hex (utf8Bytes ("order_1" ++ ":" ++ toString (119800 : Int) ++ ":" ++ "card")) ∧
    generate_idempotency_key "order_1" 119800 "card" =
      generate_idempotency_key "order_1" 119800 "card" :=
  idempotency_key_deterministic "order_1" "order_1" "card" "card"
    119800 119800 rfl rfl rfl

/-- The SHA-256 embedding agrees with `hashlib` reference digests: the FIPS
"abc" vector and the digest of a concrete idempotency-key preimage. -/
theorem sha256_matches_reference :
    sha256Hex (utf8Bytes "abc") =
      "ba7816bf8f01cfea414140de5dae2223b00361a396177a9cb410ff61f20015ad" ∧
    generate_idempotency_key "order_1" 119800 "card" =
      "933e89601ce3994304a4e29e9a52461ff9bf2ed2f0d4f1d27f2ecab3e8a64553" := by
  exact ⟨by decide, by decide⟩

/-! ### Payment creation from OrderCreated events (claims C10, C4) -/

/-- Claim C10: an OrderCreated event missing any of `totalAmount`,
`paymentMethod` or `userId` makes `handle_order_created` return early: no
payment row is inserted and no processing is started. -/
theorem order_created_missing_keys (ev : Event) (oid : PyVal)
    (payments : List PaymentRow) (pid : String)
    (h : hasKey ev "totalAmount" = false ∨ hasKey ev "paymentMethod" = false ∨
         hasKey ev "userId" = false) :
    handle_order_created ev oid payments pid = (payments, false) := by
  have hc : (hasKey ev "totalAmount" && hasKey ev "paymentMethod" &&
      hasKey ev "userId") = false := by
    rcases h with h | h | h <;> simp [h]
  simp [handle_order_created, hc]

/-- Witness for `order_created_missing_keys`: an event with an amount and a
method but no `userId` creates nothing. -/
theorem order_created_missing_keys_witness :
    handle_order_created
      [("event_type", PyVal.vStr "OrderCreated"),
       ("orderId", PyVal.vStr "order_9"),
       ("totalAmount", PyVal.vInt 5000), ("paymentMethod", PyVal.vStr "card")]
      (PyVal.vStr "order_9") [] "pay_1" = ([], false) :=
  order_created_missing_keys _ _ _ _ (Or.inr (Or.inr (by decide)))

theorem sqlEq_refl (v : PyVal) (h : v ≠ PyVal.vNone) : sqlEq v v = true := by
  cases v with
  | vStr s => simp [sqlEq]
  | vInt n => simp [sqlEq]
  | vNone => exact absurd rfl h

/-- An existing payment for the order id short-circuits
`handle_order_created`. -/
theorem handle_order_created_existing (ev : Event) (oid : PyVal)
    (payments : List PaymentRow) (pid : String)
    (h : (get_payment_by_order_id payments oid).isSome = true) :
    handle_order_created ev oid payments pid = (payments, false) := by
  cases hkeys : (hasKey ev "totalAmount" && hasKey ev "paymentMethod" &&
      hasKey ev "userId") <;>
    simp [handle_order_created, hkeys, h]

/-- After one delivery of an OrderCreated event with a non-NULL order id, a
payment row for that id is visible, or the table was left unchanged because
the early returns fired. -/
theorem deliver_no_restart (ev : Event) (oid : PyVal)
    (payments : List PaymentRow) (pid pid2 : String)
    (hnn : oid ≠ PyVal.vNone) :
    handle_order_created ev oid (deliverOrderCreated ev oid pid payments) pid2 =
      (deliverOrderCreated ev oid pid payments, false) := by
  cases hkeys : (hasKey ev "totalAmount" && hasKey ev "paymentMethod" &&
      hasKey ev "userId") with
  | false =>
    have hw : deliverOrderCreated ev oid pid payments = payments := by
      simp [deliverOrderCreated, handle_order_created, hkeys]
    rw [hw]
    simp [handle_order_created, hkeys]
  | true =>
    cases hlook : get_payment_by_order_id payments oid with
    | some p =>
      have hw : deliverOrderCreated ev oid pid payments = payments := by
        simp [deliverOrderCreated, handle_order_created, hkeys, hlook]
      rw [hw]
      exact handle_order_created_existing ev oid payments pid2 (by simp [hlook])
    | none =>
      have hany : payments.any (fun r => sqlEq r.order_id oid) = false :=
        List.any_eq_false.mpr (List.find?_eq_none.mp hlook)
      apply handle_order_created_existing
      simp only [deliverOrderCreated, handle_order_created, hkeys, hlook,
        create_payment_record, hany, get_payment_by_order_id]
      simp only [List.find?_isSome]
      have hnex : ¬ ∃ x ∈ payments, sqlEq x.order_id oid = true := by
        rw [← List.any_eq_true]
        simp [hany]
      rw [if_neg hnex]
      refine ⟨{ id := pid, order_id := oid, amount := pyGet ev "totalAmount",
                payment_method := pyGet ev "paymentMethod", status := "PENDING",
                idempotency_key := sha256Hex (utf8Bytes
                  (oid.pyStr ++ ":" ++ (pyGet ev "totalAmount").pyStr ++ ":" ++
                    (pyGet ev "paymentMethod").pyStr)) }, ?_, ?_⟩
      · simp
      · simp [sqlEq_refl oid hnn]

/-- Claim C4: when a payment row for the event's order id already exists,
`handle_order_created` returns without inserting and without starting
processing (so no `OrderPaid` can be published from this path); and after a
first delivery, any number of further duplicate deliveries leave the
payments table unchanged and start nothing. -/
theorem duplicate_order_created_idempotent (ev : Event) (oid : PyVal)
    (payments : List PaymentRow) (pid pid2 : String) :
    ((get_payment_by_order_id payments oid).isSome = true →
      handle_order_created ev oid payments pid = (payments, false)) ∧
    (oid ≠ PyVal.vNone →
      handle_order_created ev oid (deliverOrderCreated ev oid pid payments) pid2 =
        (deliverOrderCreated ev oid pid payments, false) ∧
      ∀ n, (deliverOrderCreated ev oid pid2)^[n]
          (deliverOrderCreated ev oid pid payments) =
        deliverOrderCreated ev oid pid payments) := by
  constructor
  · exact handle_order_created_existing ev oid payments pid
  · intro hnn
    refine ⟨deliver_no_restart ev oid payments pid pid2 hnn, ?_⟩
    intro n
    induction n with
    | zero => rfl
    | succ n ih =>
      rw [Function.iterate_succ_apply]
      have hfix : deliverOrderCreated ev oid pid2
          (deliverOrderCreated ev oid pid payments) =
          deliverOrderCreated ev oid pid payments := by
        show (handle_order_created ev oid
          (deliverOrderCreated ev oid pid payments) pid2).1 = _
        rw [deliver_no_restart ev oid payments pid pid2 hnn]
      rw [hfix, ih]

/-- Witness for `duplicate_order_created_idempotent`: a second delivery of
a complete OrderCreated event for `order_9` finds the row the first
delivery inserted and does nothing. -/
theorem duplicate_order_created_idempotent_witness :
    handle_order_created
      [("event_type", PyVal.vStr "OrderCreated"),
       ("orderId", PyVal.vStr "order_9"), ("userId", PyVal.vStr "u1"),
       ("totalAmount", PyVal.vInt 5000), ("paymentMethod", PyVal.vStr "card")]
      (PyVal.vStr "order_9")
      (deliverOrderCreated
        [("event_type", PyVal.vStr "OrderCreated"),
         ("orderId", PyVal.vStr "order_9"), ("userId", PyVal.vStr "u1"),
         ("totalAmount", PyVal.vInt 5000), ("paymentMethod", PyVal.vStr "card")]
        (PyVal.vStr "order_9") "pay_1" []) "pay_2" =
      (deliverOrderCreated
        [("event_type", PyVal.vStr "OrderCreated"),
         ("orderId", PyVal.vStr "order_9"), ("userId", PyVal.vStr "u1"),
         ("totalAmount", PyVal.vInt 5000), ("paymentMethod", PyVal.vStr "card")]
        (PyVal.vStr "order_9") "pay_1" [], false) :=
  ((duplicate_order_created_idempotent _ (PyVal.vStr "order_9") [] "pay_1" "pay_2").2
    (by decide)).1

/-! ### Order-id field spellings in consumers (claim C7) -/

/-- Claim C7, counterexample: the order service's `handle_payment_event`
resolves the id from `order_id` only, so an OrderPaid event carrying it
under `orderId` is dropped as missing an order id; likewise the
notification service's OrderCreated sub-handler requires `orderId`, so an
OrderCreated event carrying only `order_id` is dropped. -/
theorem consumer_spelling_counterexample :
    handle_payment_event
      [("event_type", PyVal.vStr "OrderPaid"),
       ("orderId", PyVal.vStr "order_7"),
       ("payment_id", PyVal.vStr "pay_7")] = Dispatch.dropped ∧
    notification_handle_event
      [("event_type", PyVal.vStr "OrderCreated"),
       ("order_id", PyVal.vStr "order_7"),
       ("userId", PyVal.vStr "u1")] = Dispatch.dropped := by
  exact ⟨by decide, by decide⟩

/-- Claim C7, amended: only the payment service's `handle_order_event`
accepts both the `orderId` and `order_id` spellings; the order service's
`handle_payment_event` resolves `order_id` only and drops events whose id
arrives only as `orderId`; the notification service's sub-handlers each
require the producer's spelling — `orderId` for OrderCreated, `order_id`
for OrderPaid and PaymentFailed — and drop the event otherwise. -/
theorem consumer_spelling_amended (ev : Event) :
    (pyGet ev "event_type" = PyVal.vStr "OrderCreated" →
      ((pyGet ev "orderId").truthy = true →
        handle_order_event ev = Dispatch.orderCreated (pyGet ev "orderId")) ∧
      ((pyGet ev "orderId").truthy = false →
        handle_order_event ev = Dispatch.orderCreated (pyGet ev "order_id"))) ∧
    (pyGet ev "event_type" = PyVal.vStr "OrderPaid" →
      ((pyGet ev "order_id").truthy = true →
        handle_payment_event ev = Dispatch.orderPaid (pyGet ev "order_id")) ∧
      ((pyGet ev "order_id").truthy = false →
        handle_payment_event ev = Dispatch.dropped)) ∧
    (pyGet ev "event_type" = PyVal.vStr "PaymentFailed" →
      ((pyGet ev "order_id").truthy = true →
        handle_payment_event ev = Dispatch.paymentFailed (pyGet ev "order_id")) ∧
      ((pyGet ev "order_id").truthy = false →
        handle_payment_event ev = Dispatch.dropped)) ∧
    (pyGet ev "event_type" = PyVal.vStr "OrderCreated" →
      ((pyGet ev "orderId").truthy = true →
        notification_handle_event ev = Dispatch.orderCreated (pyGet ev "orderId")) ∧
      ((pyGet ev "orderId").truthy = false →
        notification_handle_event ev = Dispatch.dropped)) ∧
    (pyGet ev "event_type" = PyVal.vStr "OrderPaid" →
      ((pyGet ev "order_id").truthy = true →
        notification_handle_event ev = Dispatch.orderPaid (pyGet ev "order_id")) ∧
      ((pyGet ev "order_id").truthy = false →
        notification_handle_event ev = Dispatch.dropped)) ∧
    (pyGet ev "event_type" = PyVal.vStr "PaymentFailed" →
      ((pyGet ev "order_id").truthy = true →
        notification_handle_event ev =
          Dispatch.paymentFailed (pyGet ev "order_id")) ∧
      ((pyGet ev "order_id").truthy = false →
        notification_handle_event ev = Dispatch.dropped)) := by
  refine ⟨?_, ?_, ?_, ?_, ?_, ?_⟩
  · intro h
    constructor <;> intro ht <;> simp [handle_order_event, pyOr, h, ht]
  · intro h
    constructor <;> intro ht <;> simp [handle_payment_event, h, ht]
  · intro h
    constructor <;> intro ht <;> simp [handle_payment_event, h, ht]
  · intro h
    constructor <;> intro ht <;> simp [notification_handle_event, h, ht]
  · intro h
    constructor <;> intro ht <;> simp [notification_handle_event, h, ht]
  · intro h
    constructor <;> intro ht <;> simp [notification_handle_event, h, ht]

/-- Witness for `consumer_spelling_amended`: a snake-case OrderPaid event is
handled by the order service. -/
theorem consumer_spelling_amended_witness :
    handle_payment_event
      [("event_type", PyVal.vStr "OrderPaid"), ("order_id", PyVal.vStr "order_7")] =
      Dispatch.orderPaid
        (pyGet [("event_type", PyVal.vStr "OrderPaid"),
                ("order_id", PyVal.vStr "order_7")] "order_id") :=
  ((consumer_spelling_amended
      [("event_type", PyVal.vStr "OrderPaid"), ("order_id", PyVal.vStr "order_7")]).2.1
    (by decide)).1 (by decide)

/-! ### Outbox relay (claim C2) -/

/-- If every publish attempt in range fails, the retry wrapper never
reports success (it re-raises the last exception). -/
theorem retry_pub_all_fail (pub : Nat → Bool) :
    ∀ n i, (∀ j, j < n → pub (i + j) = false) →
      retry_with_backoff (publish_event_with_confirmation pub) i n ≠
        Except.ok true := by
  intro n
  induction n using Nat.strong_induction_on with
  | _ n ih =>
    match n with
    | 0 =>
      intro i _
      simp [retry_with_backoff]
    | 1 =>
      intro i h
      have h0 : pub i = false := by simpa using h 0 (by omega)
      simp [retry_with_backoff, publish_event_with_confirmation, h0]
    | n + 2 =>
      intro i h
      have h0 : pub i = false := by simpa using h 0 (by omega)
      simp only [retry_with_backoff, publish_event_with_confirmation, h0,
        Bool.false_eq_true, if_false]
      exact ih (n + 1) (by omega) (i + 1) fun j hj => by
        have hs : i + 1 + j = i + (j + 1) := by omega
        rw [hs]
        exact h (j + 1) (by omega)

/-- A successful retry implies some publish attempt in range succeeded. -/
theorem retry_pub_ok_exists (pub : Nat → Bool) :
    ∀ n i, retry_with_backoff (publish_event_with_confirmation pub) i n =
        Except.ok true →
      ∃ j, j < n ∧ pub (i + j) = true := by
  intro n
  induction n using Nat.strong_induction_on with
  | _ n ih =>
    match n with
    | 0 =>
      intro i h
      simp [retry_with_backoff] at h
    | 1 =>
      intro i h
      cases hp : pub i with
      | true => exact ⟨0, by omega, by simpa using hp⟩
      | false =>
        rw [show (1 : Nat) = 0 + 1 by rfl] at h
        simp [retry_with_backoff, publish_event_with_confirmation, hp] at h
    | n + 2 =>
      intro i h
      cases hp : pub i with
      | true => exact ⟨0, by omega, by simpa using hp⟩
      | false =>
        simp only [retry_with_backoff, publish_event_with_confirmation, hp,
          Bool.false_eq_true, if_false] at h
        obtain ⟨j, hj, hpj⟩ := ih (n + 1) (by omega) (i + 1) h
        refine ⟨j + 1, by omega, ?_⟩
        have hs : i + (j + 1) = i + 1 + j := by omega
        rw [hs]
        exact hpj

/-- Claim C2: `process_single_event` marks the row processed (stamping
`processed_at`) only when some publish attempt succeeded; when every
attempt fails it returns false and leaves the table — and so the row's
`processed = false` flag — unchanged, for the next poll cycle to retry. -/
theorem outbox_marks_only_after_publish (table : List OutboxRow)
    (ev : OutboxRow) (pub : Nat → Bool) (m now : Nat) :
    ((∀ i, i < m → pub i = false) →
      process_single_event table ev pub m now = (false, table)) ∧
    ((process_single_event table ev pub m now).2 ≠ table →
      (∃ i, i < m ∧ pub i = true) ∧
      (process_single_event table ev pub m now).2 =
        table.map fun r =>
          if r.id = ev.id then
            { r with processed := true, processed_at := some now }
          else r) := by
  constructor
  · intro hall
    have hne := retry_pub_all_fail pub m 0 fun j hj => by simpa using hall j hj
    unfold process_single_event
    cases hr : retry_with_backoff (publish_event_with_confirmation pub) 0 m with
    | ok v =>
      cases v with
      | true => exact absurd hr hne
      | false => rfl
    | error e => rfl
  · intro hchg
    cases hr : retry_with_backoff (publish_event_with_confirmation pub) 0 m with
    | error e =>
      exfalso
      apply hchg
      unfold process_single_event
      rw [hr]
    | ok v =>
      cases v with
      | false =>
        exfalso
        apply hchg
        unfold process_single_event
        rw [hr]
      | true =>
        have hex : ∃ i, i < m ∧ pub i = true := by
          obtain ⟨j, hj, hpj⟩ := retry_pub_ok_exists pub m 0 hr
          exact ⟨j, hj, by simpa using hpj⟩
        refine ⟨hex, ?_⟩
        unfold process_single_event
        rw [hr]
        cases hm : mark_event_processed table ev.id now with
        | ok t =>
          have ht : t = table.map fun r =>
              if r.id = ev.id then
                { r with processed := true, processed_at := some now }
              else r := by
            simp only [mark_event_processed] at hm
            split at hm
            · injection hm with h
              exact h.symm
            · cases hm
          simpa using ht
        | error e2 =>
          exfalso
          apply hchg
          unfold process_single_event
          rw [hr, hm]

/-- Witness for `outbox_marks_only_after_publish`: with a publisher that
always fails and three retries, the row is returned unprocessed. -/
theorem outbox_marks_only_after_publish_witness :
    process_single_event
      [{ id := 1, aggregate_id := "order_1", event_type := "OrderCreated",
         event_data := [], processed := false, processed_at := none }]
      { id := 1, aggregate_id := "order_1", event_type := "OrderCreated",
        event_data := [], processed := false, processed_at := none }
      (fun _ => false) 3 50 =
      (false,
       [{ id := 1, aggregate_id := "order_1", event_type := "OrderCreated",
          event_data := [], processed := false, processed_at := none }]) :=
  (outbox_marks_only_after_publish _ _ _ 3 50).1 fun _ _ => rfl

/-! ### Unique-constraint conflict on payment insert (claim C8) -/

/-- Claim C8, counterexample: a payment row for the same order committed
between the idempotency check and the INSERT makes `create_payment_record`
raise; `process_payment`'s generic handler turns this into a 500 response
instead of the claimed idempotent success (no duplicate row is inserted). -/
theorem payment_conflict_counterexample :
    (process_payment
      [("orderId", PyVal.vStr "order_1"), ("amount", PyVal.vInt 100),
       ("paymentMethod", PyVal.vStr "card")]
      []
      [{ id := "pay_0", order_id := PyVal.vStr "order_1",
         amount := PyVal.vInt 100, payment_method := PyVal.vStr "card",
         status := "PENDING", idempotency_key := "k0" }]
      "pay_1").1 = PayResp.internalError ∧
    (process_payment
      [("orderId", PyVal.vStr "order_1"), ("amount", PyVal.vInt 100),
       ("paymentMethod", PyVal.vStr "card")]
      []
      [{ id := "pay_0", order_id := PyVal.vStr "order_1",
         amount := PyVal.vInt 100, payment_method := PyVal.vStr "card",
         status := "PENDING", idempotency_key := "k0" }]
      "pay_1").2 =
      [{ id := "pay_0", order_id := PyVal.vStr "order_1",
         amount := PyVal.vInt 100, payment_method := PyVal.vStr "card",
         status := "PENDING", idempotency_key := "k0" }] := by
  exact ⟨by decide, by decide⟩

/-- Claim C8, amended: the idempotent success response exists only through
the check before the insert — a payment visible there short-circuits with
200 and no insert; a unique-constraint conflict on the INSERT itself
(a row committed concurrently after the check) re-raises and surfaces as a
500 response, with no duplicate row inserted. -/
theorem payment_conflict_amended (data : Event)
    (payments concurrent : List PaymentRow) (pid : String) (oid : PyVal)
    (n : Int) (h1 : pyGet data "orderId" = oid)
    (h2 : pyGet data "amount" = PyVal.vInt n)
    (h3 : pyGet data "paymentMethod" ≠ PyVal.vNone)
    (h4 : 0 < n) (h5 : oid ≠ PyVal.vNone) :
    (∀ p, get_payment_by_order_id payments oid = some p →
      process_payment data payments concurrent pid =
        (PayResp.okExisting p.id p.status, payments ++ concurrent)) ∧
    (get_payment_by_order_id payments oid = none →
      ((payments ++ concurrent).any fun r => sqlEq r.order_id oid) = true →
      process_payment data payments concurrent pid =
        (PayResp.internalError, payments ++ concurrent)) := by
  have hval : validate_required_fields data ["orderId", "amount", "paymentMethod"]
      = [] := by
    simp [validate_required_fields, h1, h2]
    exact ⟨h5, h3⟩
  constructor
  · intro p hp
    simp only [process_payment, hval, h1, h2, hp]
    simp [show ¬ (n ≤ 0) by omega]
  · intro hnone hconf
    simp only [process_payment, hval, h1, h2, hnone, create_payment_record, hconf]
    simp [show ¬ (n ≤ 0) by omega]

/-- Witness for `payment_conflict_amended`: the concurrent-conflict branch
evaluated on a concrete request. -/
theorem payment_conflict_amended_witness :
    process_payment
      [("orderId", PyVal.vStr "order_2"), ("amount", PyVal.vInt 250),
       ("paymentMethod", PyVal.vStr "card")]
      []
      [{ id := "pay_9", order_id := PyVal.vStr "order_2",
         amount := PyVal.vInt 250, payment_method := PyVal.vStr "card",
         status := "PENDING", idempotency_key := "k9" }]
      "pay_10" =
      (PayResp.internalError,
       [] ++
       [{ id := "pay_9", order_id := PyVal.vStr "order_2",
          amount := PyVal.vInt 250, payment_method := PyVal.vStr "card",
          status := "PENDING", idempotency_key := "k9" }]) :=
  (payment_conflict_amended
    [("orderId", PyVal.vStr "order_2"), ("amount", PyVal.vInt 250),
     ("paymentMethod", PyVal.vStr "card")]
    []
    [{ id := "pay_9", order_id := PyVal.vStr "order_2",
       amount := PyVal.vInt 250, payment_method := PyVal.vStr "card",
       status := "PENDING", idempotency_key := "k9" }]
    "pay_10" (PyVal.vStr "order_2") 250
    (by decide) (by decide) (by decide) (by decide) (by decide)).2 rfl (by decide)

/-! ### Order totals (claim C6) -/

theorem forall₂_mem_left {α β : Type} {R : α → β → Prop} {l₁ : List α}
    {l₂ : List β} (h : List.Forall₂ R l₁ l₂) {a : α} (ha : a ∈ l₁) :
    ∃ b ∈ l₂, R a b := by
  induction h with
  | nil => cases ha
  | cons hr ht ih =>
    cases ha with
    | head => exact ⟨_, List.mem_cons_self _ _, hr⟩
    | tail _ ha =>
      obtain ⟨b, hb, hrb⟩ := ih ha
      exact ⟨b, List.mem_cons_of_mem _ hb, hrb⟩

theorem forall₂_mem_right {α β : Type} {R : α → β → Prop} {l₁ : List α}
    {l₂ : List β} (h : List.Forall₂ R l₁ l₂) {b : β} (hb : b ∈ l₂) :
    ∃ a ∈ l₁, R a b := by
  induction h with
  | nil => cases hb
  | cons hr ht ih =>
    cases hb with
    | head => exact ⟨_, List.mem_cons_self _ _, hr⟩
    | tail _ hb =>
      obtain ⟨a, ha, hra⟩ := ih hb
      exact ⟨a, List.mem_cons_of_mem _ ha, hra⟩

/-- `get_pizza_details` builds exactly one detail per item, in order. -/
theorem get_pizza_details_forall (catalog : String → Option (String × Int)) :
    ∀ (items : List ReqItem) (ds : List PizzaDetail),
      get_pizza_details catalog items = Except.ok ds →
      List.Forall₂ (DetailOf catalog) items ds := by
  intro items
  induction items with
  | nil =>
    intro ds h
    injection h with h
    rw [← h]
    exact List.Forall₂.nil
  | cons it rest ih =>
    intro ds h
    simp only [get_pizza_details] at h
    split at h
    · exact Except.noConfusion h
    · next pid heq1 =>
      split at h
      · exact Except.noConfusion h
      · next nm price heq2 =>
        split at h
        · next ds' heq3 =>
          injection h with h
          rw [← h]
          exact List.Forall₂.cons ⟨pid, nm, price, heq1, heq2, rfl⟩ (ih ds' heq3)
        · exact Except.noConfusion h

theorem detailOf_catalog (catalog : String → Option (String × Int))
    (it : ReqItem) (d : PizzaDetail) (h : DetailOf catalog it d) :
    catalog d.pizza_id = some (d.pizza_name, d.pizza_price) := by
  obtain ⟨pid, nm, price, _, hc, hd⟩ := h
  subst hd
  simpa using hc

/-- `calculate_total` over the details equals the per-item catalog sum. -/
theorem calc_total_eq (catalog : String → Option (String × Int))
    (items : List ReqItem) (ds : List PizzaDetail)
    (h : List.Forall₂ (DetailOf catalog) items ds) :
    calculate_total ds = (items.map (catalogContribution catalog)).sum := by
  induction h with
  | nil => rfl
  | cons hr ht ih =>
    next it d items' ds' =>
      obtain ⟨pid, nm, price, hp, hc, hd⟩ := hr
      subst hd
      simp only [calculate_total, List.map_cons, List.sum_cons,
        catalogContribution, hp, hc] at ih ⊢
      rw [ih]

/-- Every item of the request finds a matching detail. -/
theorem details_find_isSome (catalog : String → Option (String × Int))
    (items : List ReqItem) (ds : List PizzaDetail)
    (h : List.Forall₂ (DetailOf catalog) items ds) :
    ∀ it ∈ items, ∀ pid, it.pizzaId = some pid →
      (ds.find? fun p => p.pizza_id = pid).isSome = true := by
  intro it hit pid hp
  obtain ⟨d, hd, hrel⟩ := forall₂_mem_left h hit
  obtain ⟨pid', nm, price, hp', _, hdd⟩ := hrel
  rw [hp] at hp'
  injection hp' with hp'
  apply List.find?_isSome.mpr
  refine ⟨d, hd, ?_⟩
  subst hdd
  simp [hp']

/-- The insert loop: the inserted subtotals sum to the per-item catalog
sum, and each row stores `subtotal = pizza_price * quantity`. -/
theorem buildOrderItems_sum (catalog : String → Option (String × Int))
    (oid : String) (ds : List PizzaDetail)
    (hcat : ∀ d ∈ ds, catalog d.pizza_id = some (d.pizza_name, d.pizza_price)) :
    ∀ (items : List ReqItem) (rows : List OrderItemRow),
      (∀ it ∈ items, ∀ pid, it.pizzaId = some pid →
        (ds.find? fun p => p.pizza_id = pid).isSome = true) →
      buildOrderItems oid ds items = Except.ok rows →
      (rows.map OrderItemRow.subtotal).sum =
        (items.map (catalogContribution catalog)).sum ∧
      ∀ r ∈ rows, r.subtotal = r.pizza_price * r.quantity := by
  intro items
  induction items with
  | nil =>
    intro rows _ h
    injection h with h
    rw [← h]
    exact ⟨rfl, by simp⟩
  | cons it rest ih =>
    intro rows hfind h
    simp only [buildOrderItems] at h
    split at h
    · exact Except.noConfusion h
    · next pid heq1 =>
      split at h
      · next heq2 =>
        have := hfind it (List.mem_cons_self _ _) pid heq1
        rw [heq2] at this
        simp at this
      · next detail heq2 =>
        split at h
        · exact Except.noConfusion h
        · next q heq3 =>
          split at h
          · next rows' heq4 =>
            injection h with h
            rw [← h]
            have hrest : ∀ it' ∈ rest, ∀ pid', it'.pizzaId = some pid' →
                (ds.find? fun p => p.pizza_id = pid').isSome = true :=
              fun it' hit' => hfind it' (List.mem_cons_of_mem _ hit')
            obtain ⟨ihsum, ihall⟩ := ih rows' hrest heq4
            have hmem : detail ∈ ds := List.mem_of_find?_eq_some heq2
            have hpid : detail.pizza_id = pid := by
              have := List.find?_some heq2
              simpa using this
            have hcd := hcat detail hmem
            rw [hpid] at hcd
            constructor
            · simp only [List.map_cons, List.sum_cons, catalogContribution,
                heq1, hcd, heq3, ihsum]
              simp
            · intro r hr
              cases hr with
              | head => rfl
              | tail _ hr => exact ihall r hr
          · exact Except.noConfusion h

/-- Claim C6: for an order created through the real pipeline — details from
`get_pizza_details`, total from `calculate_total`, rows and order from
`create_order_with_outbox` — the stored total equals the sum of the
inserted item subtotals, and every inserted row satisfies
`subtotal = pizza_price * quantity`. -/
theorem order_total_equals_items_sum
    (catalog : String → Option (String × Int)) (items : List ReqItem)
    (ds : List PizzaDetail) (oid uid addr pm : String) (order : OrderRow)
    (rows : List OrderItemRow) (ob : OutboxRow)
    (h1 : get_pizza_details catalog items = Except.ok ds)
    (h2 : create_order_with_outbox oid uid items ds (calculate_total ds)
      addr pm = Except.ok (order, rows, ob)) :
    order.total = (rows.map OrderItemRow.subtotal).sum ∧
    ∀ r ∈ rows, r.subtotal = r.pizza_price * r.quantity := by
  have hf := get_pizza_details_forall catalog items ds h1
  have hcat : ∀ d ∈ ds, catalog d.pizza_id = some (d.pizza_name, d.pizza_price) := by
    intro d hd
    obtain ⟨it, _, hrel⟩ := forall₂_mem_right hf hd
    exact detailOf_catalog catalog it d hrel
  simp only [create_order_with_outbox] at h2
  split at h2
  · exact Except.noConfusion h2
  · next rows' heqb =>
    injection h2 with h2
    injection h2 with ho h2
    injection h2 with hr hob
    obtain ⟨hsum, hall⟩ := buildOrderItems_sum catalog oid ds hcat items rows'
      (details_find_isSome catalog items ds hf) heqb
    rw [← hr]
    constructor
    · rw [← ho]
      show calculate_total ds = _
      rw [calc_total_eq catalog items ds hf, hsum]
    · exact hall

/-- Witness for `order_total_equals_items_sum`: the spec's happy-path
order — two `margherita` at 59900 — totals 119800 and its single row
stores `subtotal = 59900 * 2`. -/
theorem order_total_equals_items_sum_witness :
    ∃ (order : OrderRow) (rows : List OrderItemRow) (ob : OutboxRow),
      create_order_with_outbox "order_1" "u1"
        [{ pizzaId := some "margherita", quantity := some 2 }]
        [{ pizza_id := "margherita", pizza_name := "Margherita",
           pizza_price := 59900, quantity := 2, subtotal := 119800 }]
        (calculate_total
          [{ pizza_id := "margherita", pizza_name := "Margherita",
             pizza_price := 59900, quantity := 2, subtotal := 119800 }])
        "addr 5" "card" = Except.ok (order, rows, ob) ∧
      order.total = (rows.map OrderItemRow.subtotal).sum ∧
      ∀ r ∈ rows, r.subtotal = r.pizza_price * r.quantity := by
  refine ⟨_, _, _, rfl, ?_⟩
  exact order_total_equals_items_sum
    (fun pid => if pid = "margherita" then some ("Margherita", 59900) else none)
    [{ pizzaId := some "margherita", quantity := some 2 }]
    [{ pizza_id := "margherita", pizza_name := "Margherita",
       pizza_price := 59900, quantity := 2, subtotal := 119800 }]
    "order_1" "u1" "addr 5" "card" _ _ _ rfl rfl

end Pizzas
